import Mathlib

/-!
Shallow embedding of the Telegram movie bot's catalog indexing and
navigation engine (src/bot.py).

Modelling conventions:
* Python dicts are insertion-ordered association lists (`Dict α`);
  MongoDB collections are lists of documents, `find_one` is the first
  match and `update_one`/upsert replaces the first match or appends.
* External collaborators are parameters: difflib's `SequenceMatcher.ratio`
  is an arbitrary score function, the Telegram transport's `copy_message`
  an arbitrary success predicate on message ids.
* Regex character classes (`\d`, whitespace) are modelled over ASCII,
  matching the filenames the bot handles.
* Python exceptions raised by subscripting `None` or a missing dict key
  are modelled with an explicit `Except PyErr` result.
-/

namespace MovieBot

/-- Value of Python's `int()` on a string of ASCII digits. -/
def digitsToNat (l : List Char) : Nat :=
  l.foldl (fun a c => a * 10 + (c.toNat - 48)) 0

/-- Position of the last '.' in a character list, if any. -/
def lastDotPos (s : List Char) : Option Nat :=
  (List.range s.length).foldl (fun acc i => if s.getD i ' ' = '.' then some i else acc) none

/-- Root part of `os.path.splitext(filename)` (no path separators occur in
the bot's filenames): cut at the last '.' unless every character before it
is itself a '.', in which case nothing is stripped. -/
def splitextRoot (s : List Char) : List Char :=
  match lastDotPos s with
  | none => s
  | some i => if (s.take i).all (fun c => c = '.') then s else s.take i

/-- Case-insensitive match of a fixed token at the head of `s`
(re.IGNORECASE over ASCII). -/
def matchesCI : List Char → List Char → Bool
  | [], _ => true
  | _ :: _, [] => false
  | a :: as, b :: bs => (a.toLower = b.toLower) && matchesCI as bs

/-- Match of `S(\d+)E(\d+)` (re.IGNORECASE) anchored at the head of `s`,
returning the two captured integers.  Backtracking inside `\d+` can never
help (a digit handed back is still not an 'E'), so the maximal digit runs
are the only candidates. -/
def matchSEAt (s : List Char) : Option (Nat × Nat) :=
  match s with
  | [] => none
  | c :: rest =>
    if c = 'S' ∨ c = 's' then
      if (rest.takeWhile Char.isDigit).isEmpty then none
      else
        match rest.dropWhile Char.isDigit with
        | [] => none
        | e :: rest2 =>
          if e = 'E' ∨ e = 'e' then
            if (rest2.takeWhile Char.isDigit).isEmpty then none
            else some (digitsToNat (rest.takeWhile Char.isDigit), digitsToNat (rest2.takeWhile Char.isDigit))
          else none
    else none

/-- `re.search(r'S(\d+)E(\d+)', name, re.IGNORECASE)`: leftmost match. -/
def findSE : List Char → Option (Nat × Nat)
  | [] => none
  | c :: rest =>
    match matchSEAt (c :: rest) with
    | some r => some r
    | none => findSE rest

/-- Alternatives of the quality regex, in the order the pattern lists them. -/
def qualityAlts : List (List Char) :=
  ["2160p".toList, "4K".toList, "1080p".toList, "720p".toList, "480p".toList, "360p".toList]

/-- Match of the quality alternation anchored at the head of `s`, returning
the matched slice of `s` uppercased (the code does `.group(1).upper()`). -/
def matchQualityAt (s : List Char) : Option (List Char) :=
  (qualityAlts.find? (fun t => matchesCI t s)).map (fun t => (s.take t.length).map Char.toUpper)

/-- `re.search(r'(2160p|4K|1080p|720p|480p|360p)', name, re.IGNORECASE)`
followed by `.group(1).upper() if match else "Unknown"`. -/
def findQuality : List Char → String
  | [] => "Unknown"
  | c :: rest =>
    match matchQualityAt (c :: rest) with
    | some t => ⟨t⟩
    | none => findQuality rest

/-- Match of `(19|20)\d{2}` anchored at the head of `s`. -/
def matchYearAt (s : List Char) : Option (List Char) :=
  match s with
  | a :: b :: c :: d :: _ =>
    if ((a = '1' ∧ b = '9') ∨ (a = '2' ∧ b = '0')) ∧ c.isDigit ∧ d.isDigit then
      some [a, b, c, d]
    else none
  | _ => none

/-- `re.search(r'(19|20)\d{2}', name)`: leftmost match as a string. -/
def findYear : List Char → Option String
  | [] => none
  | c :: rest =>
    match matchYearAt (c :: rest) with
    | some y => some ⟨y⟩
    | none => findYear rest

/-- Alternatives of the title-split regex
`S\d+E\d+|(1080p|720p|480p|4K|2160p)|\d{4}` other than the SE pattern and
the four-digit run (note: no `360p` here, unlike the quality regex). -/
def titleSplitAlts : List (List Char) :=
  ["1080p".toList, "720p".toList, "480p".toList, "4K".toList, "2160p".toList]

/-- Four ASCII digits at the head of `s` (`\d{4}`). -/
def fourDigitsAt (s : List Char) : Bool :=
  match s with
  | a :: b :: c :: d :: _ => a.isDigit && b.isDigit && c.isDigit && d.isDigit
  | _ => false

/-- Any alternative of the title-split regex matches at the head of `s`. -/
def titleSplitMatchAt (s : List Char) : Bool :=
  (matchSEAt s).isSome || titleSplitAlts.any (fun t => matchesCI t s) || fourDigitsAt s

/-- `re.split(r'S\d+E\d+|(1080p|720p|480p|4K|2160p)|\d{4}', name, re.IGNORECASE)[0]`:
everything before the leftmost position where some alternative matches. -/
def titleBefore : List Char → List Char
  | [] => []
  | c :: rest => if titleSplitMatchAt (c :: rest) then [] else c :: titleBefore rest

/-- One step of `re.sub(r'[._-]', ' ', title)`. -/
def sepToSpace (c : Char) : Char :=
  if c = '.' ∨ c = '_' ∨ c = '-' then ' ' else c

/-- Python's `str.strip()` (ASCII whitespace). -/
def trimChars (s : List Char) : List Char :=
  ((s.dropWhile Char.isWhitespace).reverse.dropWhile Char.isWhitespace).reverse

/-- `re.sub(r'[._-]', ' ', title).strip()`. -/
def normalizeTitle (s : List Char) : String :=
  ⟨trimChars (s.map sepToSpace)⟩

/-- Parse result of `MediaDatabase.parse_filename` (the two dict shapes the
source returns, as a tagged variant). -/
inductive Parsed where
  | series (title : String) (season episode : Nat) (quality : String) (filename : String)
  | movie (title : String) (year : Option String) (quality : String) (filename : String)
deriving Repr, DecidableEq

/-- Title field of a parse result. -/
def Parsed.title : Parsed → String
  | .series t _ _ _ _ => t
  | .movie t _ _ _ => t

/-- Season/episode numbers when the result is a series, else `none`. -/
def Parsed.seasonEpisode : Parsed → Option (Nat × Nat)
  | .series _ s e _ _ => some (s, e)
  | .movie _ _ _ _ => none

/-- `MediaDatabase.parse_filename` (src/bot.py lines 58-84): strip the
extension, search quality / season-episode / year patterns, split the title
before the first SE-or-quality-or-4-digit match, normalize separators. -/
def parse_filename (filename : String) : Parsed :=
  match findSE (splitextRoot filename.toList) with
  | some (s, e) =>
    .series (normalizeTitle (titleBefore (splitextRoot filename.toList))) s e
      (findQuality (splitextRoot filename.toList)) filename
  | none =>
    .movie (normalizeTitle (titleBefore (splitextRoot filename.toList)))
      (findYear (splitextRoot filename.toList)) (findQuality (splitextRoot filename.toList)) filename

/-- One stored file reference (the value the bot keeps per quality slot). -/
structure FileInfo where
  message_id : Nat
  file_id : String
  filename : String
deriving Repr, DecidableEq

/-- A Python dict with string keys, as an insertion-ordered association list. -/
abbrev Dict (α : Type) := List (String × α)

/-- Dict read access: value of the (unique) entry with key `k`, if present. -/
def dictGet {α : Type} (d : Dict α) (k : String) : Option α :=
  (d.find? (fun p => p.1 = k)).map (fun p => p.2)

/-- Python's `d[k] = v`: update the entry with key `k` in place, or append a
new entry at the end (dict insertion order). -/
def dictSet {α : Type} (d : Dict α) (k : String) (v : α) : Dict α :=
  match d with
  | [] => [(k, v)]
  | p :: rest => if p.1 = k then (k, v) :: rest else p :: dictSet rest k v

/-- Quality label → stored file (one movie's `qualities`, or one episode). -/
abbrev QualityDict := Dict FileInfo

/-- Episode number string → qualities (one season). -/
abbrev EpisodeDict := Dict QualityDict

/-- Season number string → episodes (one series' `seasons`). -/
abbrev SeasonDict := Dict EpisodeDict

/-- A document of the `movies` collection. -/
structure MovieDoc where
  key : String
  title : String
  year : Option String
  qualities : QualityDict
deriving Repr, DecidableEq

/-- A document of the `series` collection. -/
structure SeriesDoc where
  key : String
  title : String
  seasons : SeasonDict
deriving Repr, DecidableEq

/-- The two MongoDB collections the bot reads and writes. -/
structure Catalog where
  movies : List MovieDoc
  series : List SeriesDoc
deriving Repr, DecidableEq

/-- `self.movies.find_one({"key": k})`: first document with the key. -/
def findMovieDoc (c : Catalog) (k : String) : Option MovieDoc :=
  c.movies.find? (fun d => d.key = k)

/-- `self.series.find_one({"key": k})`: first document with the key. -/
def findSeriesDoc (c : Catalog) (k : String) : Option SeriesDoc :=
  c.series.find? (fun d => d.key = k)

/-- `update_one({..}, {"$set": ..}, upsert=True)`: replace the first
document matched by `p`, or append the new document if none matches. -/
def upsertBy {α : Type} (p : α → Bool) (v : α) : List α → List α
  | [] => [v]
  | x :: xs => if p x then v :: xs else x :: upsertBy p v xs

/-- The nested `seasons.setdefault(s, {}).setdefault(e, {})[q] = rec`
mutation of `add_media`, functionally. -/
def dictSet3 (seasons : SeasonDict) (s e q : String) (fi : FileInfo) : SeasonDict :=
  dictSet seasons s
    (dictSet ((dictGet seasons s).getD []) e
      (dictSet ((dictGet ((dictGet seasons s).getD []) e).getD []) q fi))

/-- Python's `str.lower()` over ASCII, used to derive the search key. -/
def lowerKey (t : String) : String :=
  ⟨t.toList.map Char.toLower⟩

/-- `self.movies.find_one({"key": ..}) or {fresh default}` in `add_media`. -/
def foundMovieDoc (c : Catalog) (t : String) (y : Option String) : MovieDoc :=
  (findMovieDoc c (lowerKey t)).getD ⟨lowerKey t, t, y, []⟩

/-- `self.series.find_one({"key": ..}) or {fresh default}` in `add_media`. -/
def foundSeriesDoc (c : Catalog) (t : String) : SeriesDoc :=
  (findSeriesDoc c (lowerKey t)).getD ⟨lowerKey t, t, []⟩

/-- The movie document `add_media` writes back: the found document (or the
fresh default) with the parsed quality slot overwritten; the whole document
is `$set`, so `key`, `title` and `year` are whatever the found document
held. -/
def movieUpdatedDoc (c : Catalog) (t : String) (y : Option String) (q : String)
    (mid : Nat) (fid fn : String) : MovieDoc :=
  { key := (foundMovieDoc c t y).key
    title := (foundMovieDoc c t y).title
    year := (foundMovieDoc c t y).year
    qualities := dictSet (foundMovieDoc c t y).qualities q ⟨mid, fid, fn⟩ }

/-- The series document `add_media` writes back: `$set` rewrites `seasons`
(with the new slot) and `title` (to the newly parsed title). -/
def seriesUpdatedDoc (c : Catalog) (t : String) (sn en : Nat) (q : String)
    (mid : Nat) (fid fn : String) : SeriesDoc :=
  { key := (foundSeriesDoc c t).key
    title := t
    seasons :=
      dictSet3 (foundSeriesDoc c t).seasons (toString sn) (toString en) q ⟨mid, fid, fn⟩ }

/-- `MediaDatabase.add_media` (src/bot.py lines 87-128): parse the filename,
key by the lower-cased title, and upsert into the matching collection. -/
def add_media (c : Catalog) (message_id : Nat) (filename : String) (file_id : String) : Catalog :=
  match parse_filename filename with
  | .series t sn en q _ =>
    { c with series :=
        (upsertBy (fun d => d.key = lowerKey t)
          (seriesUpdatedDoc c t sn en q message_id file_id filename) c.series) }
  | .movie t y q _ =>
    { c with movies :=
        (upsertBy (fun d => d.key = lowerKey t)
          (movieUpdatedDoc c t y q message_id file_id filename) c.movies) }

/-- One row of a fuzzy-search result list (the dict the loop appends minus
the redundant `data` back-pointer; `score` is the Python field `ratio`,
renamed to keep identifiers simple). -/
structure SearchHit where
  title : String
  key : String
  score : ℚ
deriving Repr, DecidableEq

/-- The `{"movies": [...], "series": [...]}` result of `fuzzy_search`. -/
structure SearchResults where
  movies : List SearchHit
  series : List SearchHit
deriving Repr, DecidableEq

/-- Insert into a list already sorted by score descending, after every
element with an equal or larger score (the stable position). -/
def insertByScoreDesc (x : SearchHit) : List SearchHit → List SearchHit
  | [] => [x]
  | y :: ys => if x.score ≤ y.score then y :: insertByScoreDesc x ys else x :: y :: ys

/-- Python's stable `list.sort(key=.., reverse=True)`: the unique stable
descending order (equal scores keep insertion order). -/
def sortByScoreDesc : List SearchHit → List SearchHit
  | [] => []
  | x :: xs => insertByScoreDesc x (sortByScoreDesc xs)

/-- Head-anchored list match (used to build the substring test). -/
def isPrefixList : List Char → List Char → Bool
  | [], _ => true
  | _ :: _, [] => false
  | a :: as, b :: bs => a = b && isPrefixList as bs

/-- Python's `needle in hay` substring test on strings. -/
def substrIn (needle : List Char) : List Char → Bool
  | [] => isPrefixList needle []
  | c :: rest => isPrefixList needle (c :: rest) || substrIn needle rest

/-- `MediaDatabase.fuzzy_search` (src/bot.py lines 131-157).  `sm` stands
for the external `difflib.SequenceMatcher(None, a, b).ratio()` collaborator,
passed as a parameter; an entry is kept when its score reaches the
threshold or the lower-cased query is a literal substring of its key, and
each list is sorted by score descending (stable). -/
def fuzzy_search (sm : String → String → ℚ) (c : Catalog) (query : String)
    (threshold : ℚ) : SearchResults :=
  { movies :=
      sortByScoreDesc (c.movies.filterMap (fun m =>
        if threshold ≤ sm (lowerKey query) m.key
            ∨ substrIn (lowerKey query).toList m.key.toList = true
        then some ⟨m.title, m.key, sm (lowerKey query) m.key⟩ else none)),
    series :=
      sortByScoreDesc (c.series.filterMap (fun s =>
        if threshold ≤ sm (lowerKey query) s.key
            ∨ substrIn (lowerKey query).toList s.key.toList = true
        then some ⟨s.title, s.key, sm (lowerKey query) s.key⟩ else none)) }

/-- The guard of `search_media` (src/bot.py lines 242-246): strip the
incoming text, return early on an empty result or a leading '/', otherwise
hand the query to `fuzzy_search`.  `some q` means the fuzzy engine is
invoked with `q`. -/
def searchGuardQuery (text : String) : Option String :=
  if (⟨trimChars text.toList⟩ : String) = ""
      ∨ isPrefixList "/".toList (trimChars text.toList) = true then none
  else some ⟨trimChars text.toList⟩

/-- `ITEMS_PER_PAGE` (src/bot.py line 45). -/
def ITEMS_PER_PAGE : Nat := 8

/-- What one call of `show_search_results_page` computes for a given item
list and page number: the slice it renders, the page indicator (0-based
here; the code displays `page + 1`), and whether the Previous / Next
buttons are added. -/
structure PageView (α : Type) where
  items : List α
  pageIndex : Nat
  totalPages : Nat
  hasPrev : Bool
  hasNext : Bool
deriving Repr, DecidableEq

/-- Pagination core of `show_search_results_page` (src/bot.py lines
253-312): `total_pages = (n + 8 - 1) // 8`, slice `[page*8 : min(page*8+8, n)]`,
Previous shown iff `page > 0`, Next shown iff `page < total_pages - 1`
(Python int arithmetic; for `page ≥ 0` truncated Nat subtraction gives the
same comparison). -/
def show_search_results_page {α : Type} (all_items : List α) (page : Nat) : PageView α :=
  { items :=
      ((all_items.drop (page * ITEMS_PER_PAGE)).take
        (min (page * ITEMS_PER_PAGE + ITEMS_PER_PAGE) all_items.length - page * ITEMS_PER_PAGE)),
    pageIndex := page,
    totalPages := (all_items.length + ITEMS_PER_PAGE - 1) / ITEMS_PER_PAGE,
    hasPrev := decide (0 < page),
    hasNext := decide (page < (all_items.length + ITEMS_PER_PAGE - 1) / ITEMS_PER_PAGE - 1) }

/-- Insert before the first entry whose numeric key is at least as large
(the stable position for Python's `sorted(keys, key=int)`). -/
def insertByIntKeyAsc (x : String × QualityDict) :
    List (String × QualityDict) → List (String × QualityDict)
  | [] => [x]
  | y :: ys =>
    if digitsToNat x.1.toList ≤ digitsToNat y.1.toList then x :: y :: ys
    else y :: insertByIntKeyAsc x ys

/-- `sorted(season.keys(), key=lambda x: int(x))` together with the lookups
on those keys: the season's entries in ascending numeric key order (stable). -/
def sortByIntKeyAsc : List (String × QualityDict) → List (String × QualityDict)
  | [] => []
  | x :: xs => insertByIntKeyAsc x (sortByIntKeyAsc xs)

/-- The send loop of `send_all_episodes` (src/bot.py lines 596-612):
`deliver` stands for the transport's `copy_message` (true = delivered,
false = the call raised and the `except` arm ran).  Returns
`(sent_count, failed_count, message ids passed to deliver in order)`. -/
def send_all_episodes_loop (deliver : Nat → Bool) :
    List (Nat × Nat) → Nat × Nat × List Nat
  | [] => (0, 0, [])
  | p :: rest =>
    if deliver p.2 then
      ((send_all_episodes_loop deliver rest).1 + 1,
        (send_all_episodes_loop deliver rest).2.1,
        p.2 :: (send_all_episodes_loop deliver rest).2.2)
    else
      ((send_all_episodes_loop deliver rest).1,
        (send_all_episodes_loop deliver rest).2.1 + 1,
        p.2 :: (send_all_episodes_loop deliver rest).2.2)

/-- Outcome of `send_all_episodes` as seen by the user. -/
inductive SendAllResult where
  | notFound
  | noEpisodes
  | sent (sentCount failedCount : Nat) (calls : List Nat)
deriving Repr, DecidableEq

/-- `send_all_episodes` (src/bot.py lines 571-629): guard on the series,
collect `(int(ep), message_id)` for episodes holding the chosen quality in
ascending episode order, then run the send loop. -/
def send_all_episodes (deliver : Nat → Bool) (c : Catalog) (series_key : String)
    (season_num : Nat) (quality : String) : SendAllResult :=
  match findSeriesDoc c series_key with
  | none => .notFound
  | some s =>
    match (sortByIntKeyAsc ((dictGet s.seasons (toString season_num)).getD [])).filterMap
        (fun p => (dictGet p.2 quality).map (fun fi => (digitsToNat p.1.toList, fi.message_id))) with
    | [] => .noEpisodes
    | e :: es =>
      .sent (send_all_episodes_loop deliver (e :: es)).1
        (send_all_episodes_loop deliver (e :: es)).2.1
        (send_all_episodes_loop deliver (e :: es)).2.2

/-- A Python exception escaping a handler: subscripting `None`
(`TypeError`) or a missing dict key (`KeyError`). -/
inductive PyErr where
  | typeError
  | keyError
deriving Repr, DecidableEq

/-- A rendered menu: the message text and the `(label, callback_data)`
button rows. -/
structure Menu where
  text : String
  buttons : List (String × String)
deriving Repr, DecidableEq

/-- Two-digit zero-padded rendering (`f"{n:02d}"`). -/
def pad2 (n : Nat) : String :=
  if n < 10 then "0" ++ toString n else toString n

/-- `show_series_seasons` (src/bot.py lines 521-532): guarded — a missing
series renders the terminal "Series not found" message. -/
def show_series_seasons (c : Catalog) (series_key : String) : Except PyErr Menu :=
  match findSeriesDoc c series_key with
  | none => .ok { text := "❌ Series not found.", buttons := [] }
  | some s =>
    .ok { text := "📺 " ++ s.title ++ "\nSelect Season:",
          buttons := s.seasons.map (fun p =>
            ("Season " ++ p.1 ++ " (" ++ toString p.2.length ++ " eps)",
              "season:" ++ series_key ++ ":" ++ p.1)) }

/-- `show_season_episodes` (src/bot.py lines 534-550): NOT guarded — when
the series is gone, `s['seasons']` subscripts `None` and raises; a missing
season falls back to `{}` and renders an episode-less menu. -/
def show_season_episodes (c : Catalog) (series_key : String) (season_num : Nat) :
    Except PyErr Menu :=
  match findSeriesDoc c series_key with
  | none => .error .typeError
  | some s =>
    .ok { text := "📺 " ++ s.title ++ " - Season " ++ toString season_num
            ++ "\nSelect Episode or Send All:",
          buttons :=
            ("📦 Send All Episodes", "sendall:" ++ series_key ++ ":" ++ toString season_num)
            :: ((sortByIntKeyAsc ((dictGet s.seasons (toString season_num)).getD [])).map
                (fun p => ("Episode " ++ p.1,
                  "episode:" ++ series_key ++ ":" ++ toString season_num ++ ":" ++ p.1))
              ++ [("⬅️ Back to Seasons", "series:" ++ series_key)]) }

/-- `show_episode_qualities` (src/bot.py lines 631-642): NOT guarded — a
missing series raises `TypeError`, and a missing season or episode key
raises `KeyError` out of `s['seasons'][str(season)][str(episode)]`. -/
def show_episode_qualities (c : Catalog) (series_key : String)
    (season_num episode_num : Nat) : Except PyErr Menu :=
  match findSeriesDoc c series_key with
  | none => .error .typeError
  | some s =>
    match dictGet s.seasons (toString season_num) with
    | none => .error .keyError
    | some season =>
      match dictGet season (toString episode_num) with
      | none => .error .keyError
      | some episode =>
        .ok { text := "📺 " ++ s.title ++ " S" ++ pad2 season_num ++ "E" ++ pad2 episode_num
                ++ "\nSelect Quality:",
              buttons :=
                episode.map (fun p => ("📥 " ++ p.1, "get:" ++ toString p.2.message_id))
                ++ [("⬅️ Back to Episodes",
                      "season:" ++ series_key ++ ":" ++ toString season_num)] }

/-- The movie arm of `MediaDatabase.get_file_info` (src/bot.py lines
161-164): a conditional expression, `None`-safe by construction. -/
def get_file_info_movie (c : Catalog) (movie_key quality : String) : Option FileInfo :=
  match findMovieDoc c movie_key with
  | none => none
  | some m => dictGet m.qualities quality

/-- The body of the `try` in the episode arm of `get_file_info` (lines
167-169): `s["seasons"][str(season)][str(episode)][quality]`, with each way
it can raise made explicit. -/
def episodeChain (c : Catalog) (series_key : String) (season_num episode_num : Nat)
    (quality : String) : Except PyErr FileInfo :=
  match findSeriesDoc c series_key with
  | none => .error .typeError
  | some s =>
    match dictGet s.seasons (toString season_num) with
    | none => .error .keyError
    | some season =>
      match dictGet season (toString episode_num) with
      | none => .error .keyError
      | some episode =>
        match dictGet episode quality with
        | none => .error .keyError
        | some fi => .ok fi

/-- The episode arm of `get_file_info` (src/bot.py lines 165-171): the
`try`/`except Exception: return None` around the chain. -/
def get_file_info_episode (c : Catalog) (series_key : String)
    (season_num episode_num : Nat) (quality : String) : Option FileInfo :=
  match episodeChain c series_key season_num episode_num quality with
  | .ok fi => some fi
  | .error _ => none

/-- A small concrete catalog: one movie ("Interstellar", 1080P) and one
series ("Breaking Bad", S1E1 in 720P), as produced by indexing. -/
def demoCatalog : Catalog :=
  { movies := [⟨"interstellar", "Interstellar", some "2014",
      [("1080P", ⟨10, "fA", "Interstellar.2014.1080p.mkv"⟩)]⟩],
    series := [⟨"breaking bad", "Breaking Bad",
      [("1", [("1", [("720P", ⟨11, "fB", "Breaking.Bad.S01E01.720p.mkv"⟩)])])]⟩] }

/-- C1: the claim says a navigation token whose `searchKey`, season or
episode no longer resolves yields a NotFound terminal message and never an
exception.  The code contradicts it: `show_season_episodes` and
`show_episode_qualities` subscript the `find_one` result without a guard,
so a vanished series raises `TypeError` and a vanished season/episode
raises `KeyError` — while the sibling transition `show_series_seasons`
does render the terminal "not found" message, showing the guard was the
intent. -/
theorem C1_missing_catalog_paths_raise :
    show_season_episodes demoCatalog "ghost" 1 = .error .typeError ∧
    show_episode_qualities demoCatalog "ghost" 1 1 = .error .typeError ∧
    show_episode_qualities demoCatalog "breaking bad" 2 1 = .error .keyError ∧
    show_episode_qualities demoCatalog "breaking bad" 1 5 = .error .keyError ∧
    show_series_seasons demoCatalog "ghost" = .ok ⟨"❌ Series not found.", []⟩ := by
  exact ⟨rfl, rfl, rfl, rfl, rfl⟩

/-- C2 counterexample: paginating the empty list at page 5 does NOT return
the claimed `{items: [], pageIndex: 0, totalPages: 1, hasPrev: false,
hasNext: false}` — the code neither clamps the page nor floors the page
count at 1 (it yields pageIndex 5, totalPages 0, hasPrev true). -/
theorem C2_counterexample_empty_page5 :
    show_search_results_page ([] : List Nat) 5
      ≠ { items := [], pageIndex := 0, totalPages := 1, hasPrev := false, hasNext := false } := by
  decide

/-- C2 amended: `totalPages = ceil(count / 8)` with NO minimum (0 for an
empty list); the page index is not clamped but an out-of-range page yields
an empty slice without erroring; Previous is offered iff `page > 0` (even
on an empty out-of-range page) and Next iff `page < totalPages - 1`. -/
theorem C2_amended_pagination {α : Type} (l : List α) (page : Nat) :
    (show_search_results_page l page).pageIndex = page ∧
    (show_search_results_page l page).totalPages
      = (l.length + ITEMS_PER_PAGE - 1) / ITEMS_PER_PAGE ∧
    l.length ≤ (show_search_results_page l page).totalPages * ITEMS_PER_PAGE ∧
    (show_search_results_page l page).totalPages * ITEMS_PER_PAGE
      ≤ l.length + (ITEMS_PER_PAGE - 1) ∧
    (show_search_results_page l page).hasPrev = decide (0 < page) ∧
    (show_search_results_page l page).hasNext
      = decide (page < (show_search_results_page l page).totalPages - 1) ∧
    (l.length ≤ page * ITEMS_PER_PAGE → (show_search_results_page l page).items = []) := by
  refine ⟨rfl, rfl, ?_, ?_, rfl, rfl, fun h => ?_⟩
  · show l.length ≤ (l.length + ITEMS_PER_PAGE - 1) / ITEMS_PER_PAGE * ITEMS_PER_PAGE
    simp only [ITEMS_PER_PAGE]
    omega
  · show (l.length + ITEMS_PER_PAGE - 1) / ITEMS_PER_PAGE * ITEMS_PER_PAGE
      ≤ l.length + (ITEMS_PER_PAGE - 1)
    simp only [ITEMS_PER_PAGE]
    omega
  · show ((l.drop (page * ITEMS_PER_PAGE)).take
      (min (page * ITEMS_PER_PAGE + ITEMS_PER_PAGE) l.length - page * ITEMS_PER_PAGE)) = []
    rw [List.drop_eq_nil_of_le h, List.take_nil]

/-- C2 amended, at the claim's own example input: the empty list at page 5
with page size 8 renders an empty slice at unclamped index 5. -/
theorem C2_amended_pagination_witness :
    (show_search_results_page ([] : List Nat) 5).items = [] ∧
    (show_search_results_page ([] : List Nat) 5).pageIndex = 5 :=
  ⟨(C2_amended_pagination ([] : List Nat) 5).2.2.2.2.2.2 (by decide),
    (C2_amended_pagination ([] : List Nat) 5).1⟩

/-- C3 counterexample: "x.S1E2" contains the pattern `S<digits>E<digits>`,
yet `parse_filename` classifies it as a movie, because `os.path.splitext`
treats ".S1E2" as the extension and strips it before any pattern search. -/
theorem C3_counterexample_extension_swallows_pattern :
    findSE "x.S1E2".toList = some (1, 2) ∧
    parse_filename "x.S1E2" = Parsed.movie "x" none "Unknown" "x.S1E2" := by
  exact ⟨by decide, by decide⟩

/-- C3 amended: for every filename whose extension-stripped name contains
an `S<digits>E<digits>` pattern (case-insensitive), `parse_filename`
yields a series with season and episode equal to the integers captured at
the leftmost such pattern, regardless of any co-occurring year token. -/
theorem C3_amended_SE_in_stripped_name_yields_series (f : String) (s e : Nat)
    (h : findSE (splitextRoot f.toList) = some (s, e)) :
    (parse_filename f).seasonEpisode = some (s, e) := by
  unfold parse_filename
  rw [h]
  rfl

/-- C3 amended, instantiated at the spec's own example filename (which
carries no year token; the year-and-SE case is exercised in the C4
counterexample input). -/
theorem C3_amended_witness :
    (parse_filename "Show.Name.S02E05.720p.mkv").seasonEpisode = some (2, 5) :=
  C3_amended_SE_in_stripped_name_yields_series "Show.Name.S02E05.720p.mkv" 2 5 (by decide)

/-- C6 counterexample: the text handler only rejects queries that strip to
the empty string or start with '/'; the one-character query "a" is passed
to the fuzzy engine, contradicting the claimed minimum length of 2. -/
theorem C6_counterexample_one_char_query_reaches_engine :
    ¬ (∀ t q, searchGuardQuery t = some q → 2 ≤ q.length) := by
  intro h
  exact absurd (h "a" "a" (by decide)) (by decide)

/-- C6 amended: the handler rejects exactly the messages whose stripped
text is empty or starts with '/'; every other query — including those of
length 1 — is handed to the fuzzy engine verbatim (stripped). -/
theorem C6_amended_guard (text : String) :
    (∀ q, searchGuardQuery text = some q →
      q = (⟨trimChars text.toList⟩ : String) ∧ q ≠ ""
        ∧ isPrefixList "/".toList q.toList = false) ∧
    ((⟨trimChars text.toList⟩ : String) ≠ "" →
      isPrefixList "/".toList (trimChars text.toList) = false →
      searchGuardQuery text = some ⟨trimChars text.toList⟩) := by
  constructor
  · intro q hq
    unfold searchGuardQuery at hq
    by_cases hcond : (⟨trimChars text.toList⟩ : String) = ""
        ∨ isPrefixList "/".toList (trimChars text.toList) = true
    · rw [if_pos hcond] at hq
      exact absurd hq (by simp)
    · rw [if_neg hcond] at hq
      push_neg at hcond
      obtain ⟨h1, h2⟩ := hcond
      obtain rfl : (⟨trimChars text.toList⟩ : String) = q := Option.some.inj hq
      exact ⟨rfl, h1, by simpa using h2⟩
  · intro h1 h2
    unfold searchGuardQuery
    rw [if_neg]
    push_neg
    exact ⟨h1, by simpa using h2⟩

/-- C6 amended, at the counterexample input: "a" is stripped to itself and
reaches the engine. -/
theorem C6_amended_guard_witness : searchGuardQuery "a" = some "a" :=
  (C6_amended_guard "a").2 (by decide) (by decide)

/-- The three loop invariants of the bulk send loop: every message id is
passed to `deliver` in list order, the two counters add up to the number
of items, and the sent counter counts exactly the successful deliveries. -/
theorem send_all_loop_spec (deliver : Nat → Bool) (eps : List (Nat × Nat)) :
    (send_all_episodes_loop deliver eps).2.2 = eps.map (fun p => p.2) ∧
    (send_all_episodes_loop deliver eps).1 + (send_all_episodes_loop deliver eps).2.1
      = eps.length ∧
    (send_all_episodes_loop deliver eps).1 = (eps.filter (fun p => deliver p.2)).length := by
  induction eps with
  | nil => exact ⟨rfl, rfl, rfl⟩
  | cons p rest ih =>
    obtain ⟨ih1, ih2, ih3⟩ := ih
    by_cases h : deliver p.2
    · refine ⟨?_, ?_, ?_⟩ <;> simp [send_all_episodes_loop, h, ih1, ih3, List.filter_cons]
      omega
    · refine ⟨?_, ?_, ?_⟩ <;> simp [send_all_episodes_loop, h, ih1, ih3, List.filter_cons]
      omega

/-- C7: the bulk dispatch loop calls `deliver` on every item in list order,
a failed delivery is counted without aborting the rest, and
`sent + failed` equals the item count; in particular over three locators
where the second delivery fails it returns sent 2, failed 1 and still
calls `deliver` on the third. -/
theorem C7_dispatch_counts_and_order (deliver : Nat → Bool) (eps : List (Nat × Nat)) :
    (send_all_episodes_loop deliver eps).2.2 = eps.map (fun p => p.2) ∧
    (send_all_episodes_loop deliver eps).1 + (send_all_episodes_loop deliver eps).2.1
      = eps.length ∧
    (send_all_episodes_loop deliver eps).1 = (eps.filter (fun p => deliver p.2)).length ∧
    send_all_episodes_loop (fun mid => decide (mid ≠ 102)) [(1, 101), (2, 102), (3, 103)]
      = (2, 1, [101, 102, 103]) :=
  ⟨(send_all_loop_spec deliver eps).1, (send_all_loop_spec deliver eps).2.1,
    (send_all_loop_spec deliver eps).2.2, by decide⟩

/-- Collapse every run of repeated spaces to a single space (a step the
claim's normalization prescribes but the code does not perform). -/
def collapseSpaces : List Char → List Char
  | [] => []
  | [c] => [c]
  | a :: b :: rest =>
    if a = ' ' ∧ b = ' ' then collapseSpaces (b :: rest) else a :: collapseSpaces (b :: rest)

/-- Everything before the leftmost `S<digits>E<digits>` match (and nothing
else) — the cut point the claim describes. -/
def beforeSE : List Char → List Char
  | [] => []
  | c :: rest => if (matchSEAt (c :: rest)).isSome then [] else c :: beforeSE rest

/-- The title the C4 claim prescribes, written from the claim's words:
everything before the SE pattern, separators to spaces, repeated spaces
collapsed, trimmed. -/
def claimTitle (f : String) : String :=
  ⟨trimChars (collapseSpaces ((beforeSE (splitextRoot f.toList)).map sepToSpace))⟩

/-- C4 counterexample: for "Show..Name.2020.S01E02.mkv" the claim
prescribes the title "Show Name 2020" (everything before the SE pattern,
with space runs collapsed), but the code cuts the title at the first
quality-or-four-digit match as well (here "2020") and never collapses
runs of spaces, producing "Show  Name". -/
theorem C4_counterexample_title_split_and_collapse :
    claimTitle "Show..Name.2020.S01E02.mkv" = "Show Name 2020" ∧
    (parse_filename "Show..Name.2020.S01E02.mkv").title = "Show  Name" ∧
    (parse_filename "Show..Name.2020.S01E02.mkv").title
      ≠ claimTitle "Show..Name.2020.S01E02.mkv" := by
  exact ⟨by decide, by decide, by decide⟩

/-- `titleBefore` takes exactly the prefix up to the first position where
the split regex matches (or the whole name when it never matches). -/
theorem titleBefore_eq_take_firstMatch (s : List Char) :
    ∃ k, k ≤ s.length ∧ titleBefore s = s.take k ∧
      (∀ j, j < k → titleSplitMatchAt (s.drop j) = false) ∧
      (k = s.length ∨ titleSplitMatchAt (s.drop k) = true) := by
  induction s with
  | nil => exact ⟨0, Nat.le_refl 0, rfl, fun j hj => absurd hj (Nat.not_lt_zero j), Or.inl rfl⟩
  | cons c rest ih =>
    by_cases h : titleSplitMatchAt (c :: rest) = true
    · refine ⟨0, Nat.zero_le _, ?_, fun j hj => absurd hj (Nat.not_lt_zero j), Or.inr h⟩
      simp [titleBefore, h]
    · obtain ⟨k, hk, ht, hnone, hlast⟩ := ih
      refine ⟨k + 1, by simpa using hk, ?_, ?_, ?_⟩
      · simp only [titleBefore, h, if_false, List.take_succ_cons]
        rw [ht]
        simp
      · intro j hj
        cases j with
        | zero => simpa using h
        | succ j' => exact hnone j' (by omega)
      · cases hlast with
        | inl hl => exact Or.inl (by simp [hl])
        | inr hr => exact Or.inr (by simpa using hr)

/-- The first-match position is unique: two positions that both see no
match strictly before them and a match (or the end) at them coincide. -/
theorem firstMatch_pos_unique (s : List Char) (k k' : Nat)
    (hk : k ≤ s.length) (hk' : k' ≤ s.length)
    (hnone : ∀ j, j < k → titleSplitMatchAt (s.drop j) = false)
    (hnone' : ∀ j, j < k' → titleSplitMatchAt (s.drop j) = false)
    (hlast : k = s.length ∨ titleSplitMatchAt (s.drop k) = true)
    (hlast' : k' = s.length ∨ titleSplitMatchAt (s.drop k') = true) :
    k = k' := by
  by_contra hne
  rcases Nat.lt_or_ge k k' with hlt | hge
  · have hfalse := hnone' k hlt
    cases hlast with
    | inl he => omega
    | inr htrue => rw [hfalse] at htrue; exact Bool.false_ne_true htrue
  · have hlt' : k' < k := by omega
    have hfalse := hnone k' hlt'
    cases hlast' with
    | inl he => omega
    | inr htrue => rw [hfalse] at htrue; exact Bool.false_ne_true htrue

/-- C4 amended: the parsed title is everything before the FIRST occurrence
of `S<digits>E<digits>`, a quality token (1080p/720p/480p/4K/2160p,
case-insensitive) or any four consecutive digits in the extension-stripped
name — whichever comes first — with each '.', '_', '-' replaced by a
single space and leading/trailing whitespace trimmed; runs of spaces are
NOT collapsed. -/
theorem C4_amended_title_before_first_split_match (f : String) (k : Nat)
    (hk : k ≤ (splitextRoot f.toList).length)
    (hnone : ∀ j, j < k → titleSplitMatchAt ((splitextRoot f.toList).drop j) = false)
    (hlast : k = (splitextRoot f.toList).length
      ∨ titleSplitMatchAt ((splitextRoot f.toList).drop k) = true) :
    (parse_filename f).title
      = ⟨trimChars (((splitextRoot f.toList).take k).map sepToSpace)⟩ := by
  obtain ⟨k0, hk0, ht0, hnone0, hlast0⟩ := titleBefore_eq_take_firstMatch (splitextRoot f.toList)
  have hkk : k0 = k :=
    firstMatch_pos_unique (splitextRoot f.toList) k0 k hk0 hk hnone0 hnone hlast0 hlast
  have htitle : (parse_filename f).title
      = normalizeTitle (titleBefore (splitextRoot f.toList)) := by
    unfold parse_filename
    rcases hfse : findSE (splitextRoot f.toList) with _ | ⟨s, e⟩
    · rfl
    · rfl
  rw [htitle, ht0, hkk]
  rfl

/-- C4 amended, at a concrete input: the title of
"Show.Name.S02E05.720p.mkv" is the normalized 10-character prefix
"Show.Name." (the SE pattern is the first split match, at position 10). -/
theorem C4_amended_title_witness :
    (parse_filename "Show.Name.S02E05.720p.mkv").title = "Show Name" :=
  (C4_amended_title_before_first_split_match "Show.Name.S02E05.720p.mkv" 10
    (by decide) (by decide) (by decide)).trans (by decide)

/-- Insertion at the stable position neither adds nor drops elements. -/
theorem mem_insertByScoreDesc (x a : SearchHit) (l : List SearchHit) :
    a ∈ insertByScoreDesc x l ↔ a = x ∨ a ∈ l := by
  induction l with
  | nil => simp [insertByScoreDesc]
  | cons y ys ih =>
    simp only [insertByScoreDesc]
    by_cases h : x.score ≤ y.score
    · rw [if_pos h]
      simp only [List.mem_cons, ih]
      tauto
    · rw [if_neg h]
      simp only [List.mem_cons]

/-- The stable sort is a permutation: membership is unchanged. -/
theorem mem_sortByScoreDesc (a : SearchHit) (l : List SearchHit) :
    a ∈ sortByScoreDesc l ↔ a ∈ l := by
  induction l with
  | nil => exact Iff.rfl
  | cons x xs ih => simp [sortByScoreDesc, mem_insertByScoreDesc, ih]

/-- C5: an entry whose key contains the lower-cased query as a literal
substring is included in the fuzzy-search results for EVERY score function
and EVERY threshold — substring inclusion overrides an arbitrarily low
similarity score. -/
theorem C5_substring_overrides_threshold (sm : String → String → ℚ) (c : Catalog)
    (query : String) (threshold : ℚ) :
    (∀ m : MovieDoc, m ∈ c.movies →
      substrIn (lowerKey query).toList m.key.toList = true →
      ∃ hit, hit ∈ (fuzzy_search sm c query threshold).movies
        ∧ hit.key = m.key ∧ hit.title = m.title) ∧
    (∀ s : SeriesDoc, s ∈ c.series →
      substrIn (lowerKey query).toList s.key.toList = true →
      ∃ hit, hit ∈ (fuzzy_search sm c query threshold).series
        ∧ hit.key = s.key ∧ hit.title = s.title) := by
  constructor
  · intro m hm hsub
    refine ⟨⟨m.title, m.key, sm (lowerKey query) m.key⟩, ?_, rfl, rfl⟩
    show _ ∈ sortByScoreDesc _
    rw [mem_sortByScoreDesc]
    exact List.mem_filterMap.mpr ⟨m, hm, by rw [if_pos (Or.inr hsub)]⟩
  · intro s hs hsub
    refine ⟨⟨s.title, s.key, sm (lowerKey query) s.key⟩, ?_, rfl, rfl⟩
    show _ ∈ sortByScoreDesc _
    rw [mem_sortByScoreDesc]
    exact List.mem_filterMap.mpr ⟨s, hs, by rw [if_pos (Or.inr hsub)]⟩

/-- C5 at the spec's example: searching "bad" with threshold 0.9 against a
catalog holding "breaking bad" returns it even under a score function that
is constantly 0. -/
theorem C5_witness_bad_breaking_bad :
    ∃ hit, hit ∈ (fuzzy_search (fun _ _ => 0) demoCatalog "bad" (9/10)).series ∧
      hit.key = "breaking bad" ∧ hit.title = "Breaking Bad" :=
  (C5_substring_overrides_threshold (fun _ _ => 0) demoCatalog "bad" (9/10)).2
    ⟨"breaking bad", "Breaking Bad",
      [("1", [("1", [("720P", ⟨11, "fB", "Breaking.Bad.S01E01.720p.mkv"⟩)])])]⟩
    (by decide) (by decide)

/-- C9: the file-info lookup is total — it resolves to the stored record
exactly when every path component (movie key / series key, season, episode,
quality) resolves, and to `none` otherwise; the episode arm's catch-all
`except` turns every raised error into `none` rather than propagating it. -/
theorem C9_get_file_info_total (c : Catalog) (movie_key quality series_key : String)
    (sn en : Nat) (qq : String) (r : FileInfo) :
    (get_file_info_movie c movie_key quality = some r ↔
      ∃ m, findMovieDoc c movie_key = some m ∧ dictGet m.qualities quality = some r) ∧
    (get_file_info_episode c series_key sn en qq
      = (episodeChain c series_key sn en qq).toOption) ∧
    (get_file_info_episode c series_key sn en qq = some r ↔
      ∃ s, findSeriesDoc c series_key = some s ∧
        ∃ se, dictGet s.seasons (toString sn) = some se ∧
          ∃ ep, dictGet se (toString en) = some ep ∧ dictGet ep qq = some r) := by
  refine ⟨?_, ?_, ?_⟩
  · unfold get_file_info_movie
    cases h : findMovieDoc c movie_key with
    | none => simp
    | some m => simp
  · unfold get_file_info_episode
    cases h : episodeChain c series_key sn en qq with
    | ok fi => rfl
    | error e => rfl
  · unfold get_file_info_episode episodeChain
    cases h1 : findSeriesDoc c series_key with
    | none => simp
    | some s =>
      cases h2 : dictGet s.seasons (toString sn) with
      | none => simp [h2]
      | some se =>
        cases h3 : dictGet se (toString en) with
        | none => simp [h2, h3]
        | some ep =>
          cases h4 : dictGet ep qq with
          | none => simp [h2, h3, h4]
          | some fi => simp [h2, h3, h4]

/-- Writing an existing key leaves the first matching entry's value
replaced and the key found at the same value. -/
theorem dictGet_dictSet_self {α : Type} (d : Dict α) (k : String) (v : α) :
    dictGet (dictSet d k v) k = some v := by
  induction d with
  | nil => simp [dictSet, dictGet]
  | cons p rest ih =>
    by_cases h : p.1 = k
    · simp [dictSet, dictGet, h]
    · simp [dictSet, dictGet, List.find?, h] at ih ⊢
      exact ih

/-- Writing a key that is already present does not change the dict size. -/
theorem length_dictSet_of_mem {α : Type} (d : Dict α) (k : String) (v v0 : α)
    (h : dictGet d k = some v0) : (dictSet d k v).length = d.length := by
  induction d with
  | nil => simp [dictGet] at h
  | cons p rest ih =>
    by_cases hp : p.1 = k
    · simp [dictSet, hp]
    · have h' : dictGet rest k = some v0 := by
        simpa [dictGet, List.find?, hp] using h
      simp [dictSet, hp, ih h']

/-- After an upsert whose new element satisfies the predicate, `find?`
returns the new element. -/
theorem find?_upsertBy_self {α : Type} (p : α → Bool) (v : α) (l : List α)
    (hv : p v = true) : (upsertBy p v l).find? p = some v := by
  induction l with
  | nil => simp [upsertBy, List.find?, hv]
  | cons x xs ih =>
    by_cases hx : p x
    · simp [upsertBy, hx, List.find?, hv]
    · simp [upsertBy, hx, List.find?, ih]

/-- An upsert that found a match replaces it in place: the list length is
unchanged. -/
theorem length_upsertBy_of_found {α : Type} (p : α → Bool) (v : α) (l : List α) (x : α)
    (h : l.find? p = some x) : (upsertBy p v l).length = l.length := by
  induction l with
  | nil => simp [List.find?] at h
  | cons y ys ih =>
    by_cases hy : p y
    · simp [upsertBy, hy]
    · have h' : ys.find? p = some x := by simpa [List.find?, hy] using h
      simp [upsertBy, hy, ih h']

/-- An upsert that found a match keeps the number of matching entries. -/
theorem filter_length_upsertBy_of_found {α : Type} (p : α → Bool) (v : α) (l : List α)
    (x : α) (h : l.find? p = some x) (hv : p v = true) :
    ((upsertBy p v l).filter p).length = (l.filter p).length := by
  induction l with
  | nil => simp [List.find?] at h
  | cons y ys ih =>
    by_cases hy : p y
    · simp [upsertBy, hy, List.filter_cons, hv]
    · have h' : ys.find? p = some x := by simpa [List.find?, hy] using h
      simp [upsertBy, hy, List.filter_cons, ih h']

/-- An upsert through a predicate disjoint from `q` is invisible to a
`find?` through `q`. -/
theorem find?_upsertBy_of_disjoint {α : Type} (p q : α → Bool) (v : α) (l : List α)
    (hv : q v = false) (himp : ∀ x, p x = true → q x = false) :
    (upsertBy p v l).find? q = l.find? q := by
  induction l with
  | nil => simp [upsertBy, List.find?, hv]
  | cons y ys ih =>
    by_cases hy : p y
    · have hqy : q y = false := himp y hy
      simp [upsertBy, hy, List.find?, hv, hqy]
    · by_cases hqy : q y
      · simp [upsertBy, hy, List.find?, hqy]
      · simp [upsertBy, hy, List.find?, hqy, ih]

/-- A found movie document carries the key it was found under. -/
theorem findMovieDoc_key (c : Catalog) (k : String) (m : MovieDoc)
    (h : findMovieDoc c k = some m) : m.key = k := by
  have := List.find?_some h
  simpa using this

/-- A found series document carries the key it was found under. -/
theorem findSeriesDoc_key (c : Catalog) (k : String) (s : SeriesDoc)
    (h : findSeriesDoc c k = some s) : s.key = k := by
  have := List.find?_some h
  simpa using this

/-- The written-back movie document keeps the derived key. -/
theorem movieUpdatedDoc_key (c : Catalog) (t : String) (y : Option String) (q : String)
    (mid : Nat) (fid fn : String) :
    (movieUpdatedDoc c t y q mid fid fn).key = lowerKey t := by
  unfold movieUpdatedDoc foundMovieDoc
  cases h : findMovieDoc c (lowerKey t) with
  | none => rfl
  | some m => simpa using findMovieDoc_key c (lowerKey t) m h

/-- The written-back series document keeps the derived key. -/
theorem seriesUpdatedDoc_key (c : Catalog) (t : String) (sn en : Nat) (q : String)
    (mid : Nat) (fid fn : String) :
    (seriesUpdatedDoc c t sn en q mid fid fn).key = lowerKey t := by
  unfold seriesUpdatedDoc foundSeriesDoc
  cases h : findSeriesDoc c (lowerKey t) with
  | none => rfl
  | some s => simpa using findSeriesDoc_key c (lowerKey t) s h

/-- C10: once a movie entry exists, any further ingestion leaves its stored
`title` and `year` untouched — a re-ingested file for the same search key
only rewrites the qualities mapping (the `$set` writes back the document
that was found, so the first ingestion's `title`/`year` survive even if the
new filename parses to a different casing or year). -/
theorem C10_movie_title_year_frozen (c : Catalog) (mid : Nat) (fn fid k : String)
    (mdoc : MovieDoc) (hfind : findMovieDoc c k = some mdoc) :
    ∃ mdoc', findMovieDoc (add_media c mid fn fid) k = some mdoc' ∧
      mdoc'.title = mdoc.title ∧ mdoc'.year = mdoc.year := by
  unfold add_media
  rcases hp : parse_filename fn with ⟨t, sn, en, q, fn0⟩ | ⟨t, y, q, fn0⟩
  · exact ⟨mdoc, hfind, rfl, rfl⟩
  · by_cases hk : lowerKey t = k
    · subst hk
      have hfound : foundMovieDoc c t y = mdoc := by
        unfold foundMovieDoc
        rw [hfind]
        rfl
      refine ⟨movieUpdatedDoc c t y q mid fid fn, ?_, ?_, ?_⟩
      · exact find?_upsertBy_self _ _ c.movies
          (by simp [movieUpdatedDoc_key])
      · show (movieUpdatedDoc c t y q mid fid fn).title = mdoc.title
        unfold movieUpdatedDoc
        rw [hfound]
      · show (movieUpdatedDoc c t y q mid fid fn).year = mdoc.year
        unfold movieUpdatedDoc
        rw [hfound]
    · refine ⟨mdoc, ?_, rfl, rfl⟩
      have hdisj := find?_upsertBy_of_disjoint
        (fun d => d.key = lowerKey t) (fun d => d.key = k)
        (movieUpdatedDoc c t y q mid fid fn) c.movies
        (by simp [movieUpdatedDoc_key, hk])
        (fun x hx => by
          simp only [decide_eq_true_eq] at hx
          simp only [decide_eq_false_iff_not]
          rw [hx]
          exact hk)
      exact hdisj.trans hfind

/-- C10 at a concrete input: re-ingesting "interstellar" from a filename
with different casing and a different year (2016) leaves the stored title
"Interstellar" and the stored year "2014" unchanged. -/
theorem C10_witness_recased_reingest :
    ∃ mdoc', findMovieDoc (add_media demoCatalog 77 "INTERSTELLAR.2016.720p.mkv" "fC")
        "interstellar" = some mdoc' ∧
      mdoc'.title = "Interstellar" ∧ mdoc'.year = some "2014" :=
  C10_movie_title_year_frozen demoCatalog 77 "INTERSTELLAR.2016.720p.mkv" "fC"
    "interstellar"
    ⟨"interstellar", "Interstellar", some "2014",
      [("1080P", ⟨10, "fA", "Interstellar.2014.1080p.mkv"⟩)]⟩ (by decide)

/-- C8: re-ingesting a record whose `(title, quality)` — or
`(title, season, episode, quality)` — slot already exists overwrites the
stored locator of that slot with the new one and never creates a
duplicate: the slot dicts keep their sizes, the collection keeps its size,
and the number of catalog entries for that title is unchanged. -/
theorem C8_reingest_overwrites_no_duplicates :
    (∀ (c : Catalog) (mid : Nat) (fn fid t : String) (y : Option String) (q fn0 : String)
        (mdoc : MovieDoc) (old : FileInfo),
      parse_filename fn = Parsed.movie t y q fn0 →
      findMovieDoc c (lowerKey t) = some mdoc →
      dictGet mdoc.qualities q = some old →
      ∃ mdoc', findMovieDoc (add_media c mid fn fid) (lowerKey t) = some mdoc' ∧
        dictGet mdoc'.qualities q = some ⟨mid, fid, fn⟩ ∧
        mdoc'.qualities.length = mdoc.qualities.length ∧
        ((add_media c mid fn fid).movies.filter (fun d => d.key = lowerKey t)).length
          = (c.movies.filter (fun d => d.key = lowerKey t)).length ∧
        (add_media c mid fn fid).movies.length = c.movies.length) ∧
    (∀ (c : Catalog) (mid : Nat) (fn fid t q fn0 : String) (sn en : Nat)
        (sdoc : SeriesDoc) (seasonD : EpisodeDict) (epD : QualityDict) (old : FileInfo),
      parse_filename fn = Parsed.series t sn en q fn0 →
      findSeriesDoc c (lowerKey t) = some sdoc →
      dictGet sdoc.seasons (toString sn) = some seasonD →
      dictGet seasonD (toString en) = some epD →
      dictGet epD q = some old →
      ∃ sdoc', findSeriesDoc (add_media c mid fn fid) (lowerKey t) = some sdoc' ∧
        (∃ seasonD', dictGet sdoc'.seasons (toString sn) = some seasonD' ∧
          ∃ epD', dictGet seasonD' (toString en) = some epD' ∧
            dictGet epD' q = some ⟨mid, fid, fn⟩ ∧
            epD'.length = epD.length ∧ seasonD'.length = seasonD.length) ∧
        sdoc'.seasons.length = sdoc.seasons.length ∧
        ((add_media c mid fn fid).series.filter (fun d => d.key = lowerKey t)).length
          = (c.series.filter (fun d => d.key = lowerKey t)).length ∧
        (add_media c mid fn fid).series.length = c.series.length) := by
  constructor
  · intro c mid fn fid t y q fn0 mdoc old hp hfind hq
    have hfound : foundMovieDoc c t y = mdoc := by
      unfold foundMovieDoc
      rw [hfind]
      rfl
    have hqual : (movieUpdatedDoc c t y q mid fid fn).qualities
        = dictSet mdoc.qualities q ⟨mid, fid, fn⟩ := by
      unfold movieUpdatedDoc
      rw [hfound]
    have hadd : add_media c mid fn fid
        = { c with movies := (upsertBy (fun d => d.key = lowerKey t)
            (movieUpdatedDoc c t y q mid fid fn) c.movies) } := by
      unfold add_media
      rw [hp]
    refine ⟨movieUpdatedDoc c t y q mid fid fn, ?_, ?_, ?_, ?_, ?_⟩
    · rw [hadd]
      exact find?_upsertBy_self _ _ c.movies (by simp [movieUpdatedDoc_key])
    · rw [hqual]
      exact dictGet_dictSet_self _ _ _
    · rw [hqual]
      exact length_dictSet_of_mem _ _ _ old hq
    · rw [hadd]
      exact filter_length_upsertBy_of_found _ _ c.movies mdoc hfind
        (by simp [movieUpdatedDoc_key])
    · rw [hadd]
      exact length_upsertBy_of_found _ _ c.movies mdoc hfind
  · intro c mid fn fid t q fn0 sn en sdoc seasonD epD old hp hfind hs he hq
    have hfound : foundSeriesDoc c t = sdoc := by
      unfold foundSeriesDoc
      rw [hfind]
      rfl
    have hseasons : (seriesUpdatedDoc c t sn en q mid fid fn).seasons
        = dictSet sdoc.seasons (toString sn)
            (dictSet seasonD (toString en) (dictSet epD q ⟨mid, fid, fn⟩)) := by
      unfold seriesUpdatedDoc dictSet3
      rw [hfound, hs, Option.getD_some, he, Option.getD_some]
    have hadd : add_media c mid fn fid
        = { c with series := (upsertBy (fun d => d.key = lowerKey t)
            (seriesUpdatedDoc c t sn en q mid fid fn) c.series) } := by
      unfold add_media
      rw [hp]
    refine ⟨seriesUpdatedDoc c t sn en q mid fid fn, ?_, ?_, ?_, ?_, ?_⟩
    · rw [hadd]
      exact find?_upsertBy_self _ _ c.series (by simp [seriesUpdatedDoc_key])
    · refine ⟨dictSet seasonD (toString en) (dictSet epD q ⟨mid, fid, fn⟩), ?_,
        dictSet epD q ⟨mid, fid, fn⟩, ?_, ?_, ?_, ?_⟩
      · rw [hseasons]
        exact dictGet_dictSet_self _ _ _
      · exact dictGet_dictSet_self _ _ _
      · exact dictGet_dictSet_self _ _ _
      · exact length_dictSet_of_mem _ _ _ old hq
      · exact length_dictSet_of_mem _ _ _ epD he
    · rw [hseasons]
      exact length_dictSet_of_mem _ _ _ seasonD hs
    · rw [hadd]
      exact filter_length_upsertBy_of_found _ _ c.series sdoc hfind
        (by simp [seriesUpdatedDoc_key])
    · rw [hadd]
      exact length_upsertBy_of_found _ _ c.series sdoc hfind

/-- C8 at concrete inputs: re-ingesting the demo catalog's existing
(Interstellar, 1080P) slot and its existing (Breaking Bad, S1, E1, 720P)
slot replaces the stored locators without changing any entry count. -/
theorem C8_witness_reingest :
    (∃ mdoc', findMovieDoc (add_media demoCatalog 99 "Interstellar.2014.1080p.mkv" "fN")
        (lowerKey "Interstellar") = some mdoc' ∧
      dictGet mdoc'.qualities "1080P" = some ⟨99, "fN", "Interstellar.2014.1080p.mkv"⟩ ∧
      mdoc'.qualities.length = 1 ∧
      ((add_media demoCatalog 99 "Interstellar.2014.1080p.mkv" "fN").movies.filter
          (fun d => d.key = lowerKey "Interstellar")).length
        = (demoCatalog.movies.filter (fun d => d.key = lowerKey "Interstellar")).length ∧
      (add_media demoCatalog 99 "Interstellar.2014.1080p.mkv" "fN").movies.length
        = demoCatalog.movies.length) ∧
    (∃ sdoc', findSeriesDoc (add_media demoCatalog 98 "Breaking.Bad.S01E01.720p.mkv" "fM")
        (lowerKey "Breaking Bad") = some sdoc' ∧
      (∃ seasonD', dictGet sdoc'.seasons (toString 1) = some seasonD' ∧
        ∃ epD', dictGet seasonD' (toString 1) = some epD' ∧
          dictGet epD' "720P" = some ⟨98, "fM", "Breaking.Bad.S01E01.720p.mkv"⟩ ∧
          epD'.length = 1 ∧ seasonD'.length = 1) ∧
      sdoc'.seasons.length = 1 ∧
      ((add_media demoCatalog 98 "Breaking.Bad.S01E01.720p.mkv" "fM").series.filter
          (fun d => d.key = lowerKey "Breaking Bad")).length
        = (demoCatalog.series.filter (fun d => d.key = lowerKey "Breaking Bad")).length ∧
      (add_media demoCatalog 98 "Breaking.Bad.S01E01.720p.mkv" "fM").series.length
        = demoCatalog.series.length) :=
  ⟨C8_reingest_overwrites_no_duplicates.1 demoCatalog 99 "Interstellar.2014.1080p.mkv"
      "fN" "Interstellar" (some "2014") "1080P" "Interstellar.2014.1080p.mkv"
      ⟨"interstellar", "Interstellar", some "2014",
        [("1080P", ⟨10, "fA", "Interstellar.2014.1080p.mkv"⟩)]⟩
      ⟨10, "fA", "Interstellar.2014.1080p.mkv"⟩
      (by decide) (by decide) (by decide),
    C8_reingest_overwrites_no_duplicates.2 demoCatalog 98 "Breaking.Bad.S01E01.720p.mkv"
      "fM" "Breaking Bad" "720P" "Breaking.Bad.S01E01.720p.mkv" 1 1
      ⟨"breaking bad", "Breaking Bad",
        [("1", [("1", [("720P", ⟨11, "fB", "Breaking.Bad.S01E01.720p.mkv"⟩)])])]⟩
      [("1", [("720P", ⟨11, "fB", "Breaking.Bad.S01E01.720p.mkv"⟩)])]
      [("720P", ⟨11, "fB", "Breaking.Bad.S01E01.720p.mkv"⟩)]
      ⟨11, "fB", "Breaking.Bad.S01E01.720p.mkv"⟩
      (by decide) (by decide) (by decide) (by decide) (by decide)⟩

end MovieBot
